import Mathlib

/-!
# Verification of the local-llm streaming pipeline core

Shallow embedding, in Lean 4, of the parts of the `local-llm` repository that
the specification's claims talk about:

* the LLM output chunker of `LlamaLLM::generate_async` (src/llm_llama.cpp)
  and its `RknnLLM` variant (src/llm_rknn.cpp), together with the antiprompt
  stop logic of the llama generation loop;
* the `SafeQueue` channel of include/async_pipeline.h;
* the TTS control handling and `interrupt_audio_immediately` of
  src/async_processors.cpp;
* the phoneme shared-memory ring writer `TTSProcessor::send_phoneme_data`;
* the tail fade helper `fade_and_trim_tail_ms`.

Strings are modelled byte-wise as `List Nat` (the C++ code scans
`unsigned char`s of `std::string`s).  Stateful code is modelled as explicit
state-passing functions; blocking condition-variable waits are modelled at the
single evaluation point where the wait predicate is examined, with a distinct
`none` outcome standing for "the call blocks until another thread changes the
state".
-/

namespace LocalLLM

/-! ## Byte classification (llm_llama.cpp lines 517-520, llm_rknn.cpp 182-185)

`std::isspace` / `std::isalnum` in the "C" locale on `unsigned char` values.
-/

/-- `std::isspace(uc)` in the C locale: space, \t, \n, \v, \f, \r. -/
def isWS (c : Nat) : Bool :=
  c = 32 || c = 9 || c = 10 || c = 11 || c = 12 || c = 13

/-- `std::isalnum(uc)` in the C locale: digits and ASCII letters. -/
def isAlnum (c : Nat) : Bool :=
  (48 ≤ c && c ≤ 57) || (65 ≤ c && c ≤ 90) || (97 ≤ c && c ≤ 122)

/-- `is_wchar`: alphanumeric, apostrophe (39), or any non-ASCII byte. -/
def isWordChar (c : Nat) : Bool :=
  isAlnum c || c = 39 || 128 ≤ c

/-- `is_punct`: one of `. ! ? , ; :` (bytes 46 33 63 44 59 58). -/
def isPunct (c : Nat) : Bool :=
  c = 46 || c = 33 || c = 63 || c = 44 || c = 59 || c = 58

/-- A sentence-terminating byte: `.` `!` `?` (bytes 46 33 63). -/
def isSentenceEnd (c : Nat) : Bool :=
  c = 46 || c = 33 || c = 63

/-! ## The output chunker

State variables of `LlamaLLM::generate_async` (llm_llama.cpp lines 417-419):
`token_buffer`, `word_count`, `in_word`.  The rknn variant keeps the same
three fields on the backend object.
-/

/-- Chunker state: `token_buffer`, `word_count`, `in_word`. -/
structure ChunkerState where
  token_buffer : List Nat
  word_count : Nat
  in_word : Bool
  deriving Repr, DecidableEq

/-- Fresh chunker state at the start of a generation. -/
def ChunkerState.init : ChunkerState := ⟨[], 0, false⟩

/-- One step of the byte scan (llm_llama.cpp lines 517-530): word characters
open a word; whitespace or punctuation closes an open word, incrementing
`word_count`.  Any other byte leaves the state unchanged. -/
def scanByte (st : ChunkerState) (c : Nat) : ChunkerState :=
  if isWordChar c then
    { st with in_word := true }
  else if st.in_word && (isWS c || isPunct c) then
    { st with word_count := st.word_count + 1, in_word := false }
  else
    st

/-- `MAX_BYTES`, the latency safety valve (llm_llama.cpp line 538). -/
def MAX_BYTES : Nat := 96

/-- The byte scan of one fragment (llm_llama.cpp lines 517-530); it updates
only `word_count` and `in_word`. -/
def scanFrag (st : ChunkerState) (frag : List Nat) : ChunkerState :=
  frag.foldl scanByte st

/-- Process one incoming token fragment (llm_llama.cpp lines 512-550):
append it to the buffer, scan its bytes, then flush the buffer as one chunk
when `word_count ≥ wcMin`, or the fragment contained a sentence-terminating
byte, or the buffer holds at least `MAX_BYTES` bytes.  `in_word` is reset at
a flush only when the flush was due to a sentence end.  `wcMin` is 4 in
llm_llama.cpp (line 539) and 3 in llm_rknn.cpp (line 207).
Returns the new state and the emitted chunk, if any. -/
def feedFragment (wcMin : Nat) (st : ChunkerState) (frag : List Nat) :
    ChunkerState × Option (List Nat) :=
  let buf := st.token_buffer ++ frag
  let w := scanFrag st frag
  let sentence_ended := frag.any isSentenceEnd
  if wcMin ≤ w.word_count || sentence_ended || decide (MAX_BYTES ≤ buf.length) then
    (⟨[], 0, if sentence_ended then false else w.in_word⟩, some buf)
  else
    ({ w with token_buffer := buf }, none)

/-- Run the chunker over a list of fragments, collecting emitted chunks. -/
def runFrom (wcMin : Nat) : ChunkerState → List (List Nat) →
    ChunkerState × List (List Nat)
  | st, [] => (st, [])
  | st, f :: fs =>
    let step := feedFragment wcMin st f
    let rest := runFrom wcMin step.1 fs
    (rest.1, step.2.toList ++ rest.2)

/-- End-of-generation flush (llm_llama.cpp lines 580-584): emit any remaining
buffered text. -/
def finalFlush (st : ChunkerState) : List (List Nat) :=
  if st.token_buffer = [] then [] else [st.token_buffer]

/-- All chunks emitted for a finite stream of fragments, the final flush
included. -/
def processFragments (wcMin : Nat) (frags : List (List Nat)) : List (List Nat) :=
  let r := runFrom wcMin ChunkerState.init frags
  r.2 ++ finalFlush r.1

/-! ## Antiprompt handling in `LlamaLLM::generate_async`

llm_llama.cpp lines 554-584.  After a token fragment has been appended to the
response and run through the chunker, the tail of the text produced so far is
compared against each antiprompt (the code rebuilds that tail from the last
16 tokens plus the current one and checks the antiprompt at exactly the
suffix position).  On a match, generation halts and the antiprompt is removed
from `text_to_speak` — the string later returned as `response` — by
`::replace(text_to_speak, antiprompt, "")`.  The token buffer and the already
emitted chunks are not touched.
-/

/-- Worker for `removeAll`; the fuel argument only certifies termination
(every step consumes at least one byte of the text, so `fuel = s.length`
never runs out). -/
def removeAllGo (pat : List Nat) : Nat → List Nat → List Nat
  | _, [] => []
  | 0, l => l
  | fuel + 1, c :: rest =>
    if pat ≠ [] ∧ List.isPrefixOf pat (c :: rest) then
      removeAllGo pat fuel (List.drop (pat.length - 1) rest)
    else
      c :: removeAllGo pat fuel rest

/-- `::replace(s, pat, "")` (helper from whisper.cpp's common.h, outside this
repository): scan left to right and delete every occurrence of `pat`. -/
def removeAll (pat s : List Nat) : List Nat :=
  removeAllGo pat s.length s

/-- State of one `generate_async` call: the chunker state, the raw text
produced so far (what `text_to_speak` holds before any antiprompt removal),
the response text (`text_to_speak`, antiprompt removal applied), the chunks
handed to the callback so far, and the `done` flag. -/
structure GenState where
  chunker : ChunkerState
  raw : List Nat
  text_to_speak : List Nat
  emitted : List (List Nat)
  done : Bool
  deriving Repr, DecidableEq

def GenState.init : GenState := ⟨ChunkerState.init, [], [], [], false⟩

/-- One token fragment of the generation loop (llm_llama.cpp lines 507-577):
append the fragment to the response and the chunker buffer, possibly flush a
chunk, then check the antiprompts against the tail of the produced text; on a
match set `done` and strip the antiprompt from the response text.  Fragments
arriving after `done` are not processed (the loop exits). -/
def genStep (wcMin : Nat) (antis : List (List Nat)) (s : GenState)
    (frag : List Nat) : GenState :=
  if s.done then s
  else
    let raw := s.raw ++ frag
    let step := feedFragment wcMin s.chunker frag
    match antis.find? (fun a => List.isSuffixOf a raw) with
    | some a =>
      { chunker := step.1, raw := raw, text_to_speak := removeAll a raw,
        emitted := s.emitted ++ step.2.toList, done := true }
    | none =>
      { chunker := step.1, raw := raw, text_to_speak := raw,
        emitted := s.emitted ++ step.2.toList, done := false }

/-- Run the generation loop over a finite stream of token fragments. -/
def genRun (wcMin : Nat) (antis : List (List Nat)) :
    GenState → List (List Nat) → GenState
  | s, [] => s
  | s, f :: fs => genRun wcMin antis (genStep wcMin antis s f) fs

/-- `LlamaLLM::generate_async` viewed as a stream transducer: the emitted
chunk stream (final flush at lines 580-584 included) and the final
`response` string. -/
def generateAsync (wcMin : Nat) (antis : List (List Nat))
    (frags : List (List Nat)) : List (List Nat) × List Nat :=
  let s := genRun wcMin antis GenState.init frags
  (s.emitted ++ finalFlush s.chunker, s.text_to_speak)

/-! ## `SafeQueue` (include/async_pipeline.h lines 124-270)

The channel body is a mutex-guarded FIFO with two condition variables and an
atomic shutdown flag.  Each operation is modelled as a pure function on the
channel state at the point where the operation holds the lock and examines
its wait predicate.  A blocking wait whose predicate is false is modelled by
the `none` outcome: in the sequential model no other thread can make the
predicate true.  `interrupt` is the sampled value of the optional external
interrupt flag (`external_interrupt_requested`). -/

namespace SafeQueue

/-- `PopResult` (async_pipeline.h lines 21-27). -/
inductive PopResult where
  | SUCCESS | EMPTY | SHUTDOWN | INTERRUPTED | TIMEOUT
  deriving Repr, DecidableEq

/-- The state of one `SafeQueue<T>`. -/
structure State (α : Type) where
  queue : List α
  max_size : Nat
  shutdown_flag : Bool
  interrupt : Bool
  deriving Repr, DecidableEq

variable {α : Type}

/-- `push(item, timeout)` (lines 135-152): fails at once when shut down;
otherwise waits for space — in the sequential model a full queue means the
wait can only end by timeout, which also returns `false`. -/
def push (s : State α) (item : α) : Bool × State α :=
  if s.shutdown_flag then (false, s)
  else if s.queue.length < s.max_size then
    (true, { s with queue := s.queue ++ [item] })
  else (false, s)

/-- `push_blocking(item)` (lines 155-169): `some b` is the returned boolean;
`none` means the call blocks waiting for space. -/
def push_blocking (s : State α) (item : α) : Option Bool × State α :=
  if s.shutdown_flag then (some false, s)
  else if s.queue.length < s.max_size then
    (some true, { s with queue := s.queue ++ [item] })
  else (none, s)

/-- `pop(&item, timeout)` (lines 172-189).  The wait predicate is
`!empty || shutdown || interrupted`; when none of these holds the wait can
only end by timeout.  When it holds, the checks run in the order
shutdown, interrupted, empty, success. -/
def pop (s : State α) : PopResult × Option α × State α :=
  if s.shutdown_flag then (.SHUTDOWN, none, s)
  else if s.interrupt then (.INTERRUPTED, none, s)
  else
    match s.queue with
    | [] => (.TIMEOUT, none, s)
    | x :: rest => (.SUCCESS, some x, { s with queue := rest })

/-- `pop_blocking(&item)` (lines 192-207): `none` means the call blocks. -/
def pop_blocking (s : State α) : Option (PopResult × Option α) × State α :=
  if s.shutdown_flag then (some (.SHUTDOWN, none), s)
  else if s.interrupt then (some (.INTERRUPTED, none), s)
  else
    match s.queue with
    | [] => (none, s)
    | x :: rest => (some (.SUCCESS, some x), { s with queue := rest })

/-- `try_pop(&item)` (lines 210-220). -/
def try_pop (s : State α) : PopResult × Option α × State α :=
  if s.shutdown_flag then (.SHUTDOWN, none, s)
  else if s.interrupt then (.INTERRUPTED, none, s)
  else
    match s.queue with
    | [] => (.EMPTY, none, s)
    | x :: rest => (.SUCCESS, some x, { s with queue := rest })

/-- `flush()` (lines 240-247): discard all items, return their count. -/
def flush (s : State α) : Nat × State α :=
  (s.queue.length, { s with queue := [] })

/-- `clear()` (lines 232-237). -/
def clear (s : State α) : State α := { s with queue := [] }

/-- `shutdown()` (lines 249-256): set the shutdown flag and wake all
waiters.  Nothing in the class ever resets the flag. -/
def shutdownOp (s : State α) : State α := { s with shutdown_flag := true }

/-- Every operation of the class, for stating flag monotonicity. -/
inductive Op (α : Type) where
  | push (item : α)
  | push_blocking (item : α)
  | pop
  | pop_blocking
  | try_pop
  | flush
  | clear
  | shutdownOp

/-- The state reached after one operation. -/
def applyOp : Op α → State α → State α
  | .push a, s => (push s a).2
  | .push_blocking a, s => (push_blocking s a).2
  | .pop, s => (pop s).2.2
  | .pop_blocking, s => (pop_blocking s).2
  | .try_pop, s => (try_pop s).2.2
  | .flush, s => (flush s).2
  | .clear, s => clear s
  | .shutdownOp, s => shutdownOp s

end SafeQueue

/-! ## TTS worker control handling and immediate audio interruption

`TTSProcessor::handle_control_message` (src/async_processors.cpp lines
352-366) and `AudioOutputProcessor::interrupt_audio_immediately` (lines
474-487).  The ALSA calls are modelled as an ordered event trace. -/

namespace TTSControl

/-- `ControlMessage::Type` (async_pipeline.h lines 96-102). -/
inductive CtrlType where
  | INTERRUPT | FLUSH_QUEUES | PAUSE | RESUME | SHUTDOWN
  deriving Repr, DecidableEq

/-- Observable device/queue actions of `interrupt_audio_immediately`,
in program order. -/
inductive AudioEvent where
  /-- `input_queue_.flush()` on the audio-chunk channel, recording how many
  chunks were discarded. -/
  | flushAudioQueue (n : Nat)
  /-- `snd_pcm_drop(alsa_handle_)`. -/
  | pcmDrop
  /-- `snd_pcm_prepare(alsa_handle_)`. -/
  | pcmPrepare
  deriving Repr, DecidableEq

/-- Joint state of the TTS worker's input queue, its internal audio-chunk
channel, and the playback device handle. -/
structure State where
  /-- Items of the TTS input (response) queue. -/
  tts_input : List (List Nat)
  /-- Items of the internal audio-chunk channel. -/
  audio_queue : List (List Int)
  /-- Whether `alsa_handle_` is non-null. -/
  alsa_open : Bool
  /-- Trace of device/queue events, oldest first. -/
  events : List AudioEvent
  deriving Repr, DecidableEq

/-- `AudioOutputProcessor::interrupt_audio_immediately` (lines 474-487):
flush the audio-chunk channel, then, if the device is open, drop and
re-prepare it. -/
def interrupt_audio_immediately (s : State) : State :=
  let s1 := { s with audio_queue := [],
                     events := s.events ++ [AudioEvent.flushAudioQueue s.audio_queue.length] }
  if s1.alsa_open then
    { s1 with events := s1.events ++ [AudioEvent.pcmDrop, AudioEvent.pcmPrepare] }
  else s1

/-- `TTSProcessor::handle_control_message` (lines 352-366): on `INTERRUPT` or
`FLUSH_QUEUES`, flush the input queue and call
`interrupt_current_speech`, which forwards to the audio worker's
`interrupt_audio_immediately`; return `true` (handled).  Other signals are
not handled here. -/
def handle_control_message (s : State) (t : CtrlType) : Bool × State :=
  if t = .INTERRUPT ∨ t = .FLUSH_QUEUES then
    (true, interrupt_audio_immediately { s with tts_input := [] })
  else (false, s)

end TTSControl

/-! ## The phoneme shared-memory ring

`PhonemeQueueHeader` (include/async_processors.h lines 21-26) and the writer
loop body of `TTSProcessor::send_phoneme_data` (src/async_processors.cpp
lines 788-805). -/

namespace PhonemeRing

/-- `PhonemeQueueHeader::MAX_PHONEMES`. -/
def MAX_PHONEMES : Nat := 1024

/-- The ring indices (the slot payloads do not affect the index protocol). -/
structure Ring where
  write_index : Nat
  read_index : Nat
  deriving Repr, DecidableEq

/-- One attempted write (the body of the loop in `send_phoneme_data`): if the
advanced write index would equal the read index the event is dropped,
otherwise the slot is written and `write_index` is advanced.  Returns the new
state and whether the write succeeded. -/
def write (s : Ring) : Ring × Bool :=
  let next := (s.write_index + 1) % MAX_PHONEMES
  if next = s.read_index then (s, false)
  else ({ s with write_index := next }, true)

/-- `n` successive attempted writes. -/
def writeN : Nat → Ring → Ring
  | 0, s => s
  | n + 1, s => writeN n (write s).1

/-- Number of successes among `n` successive attempted writes. -/
def writeNOk : Nat → Ring → Nat
  | 0, _ => 0
  | n + 1, s => (if (write s).2 then 1 else 0) + writeNOk n (write s).1

end PhonemeRing

/-! ## Tail fade (`fade_and_trim_tail_ms`, src/async_processors.cpp 9-31)

The samples are 16-bit integers; the per-sample gain is computed in floating
point.  The gain arithmetic is modelled over `ℝ`; every claim proved about it
only relies on values that are exact in IEEE arithmetic as well (the gain of
the last sample is `pow(0.0f, e) = 0` exactly, and the prefix of the buffer
before the fade window is never touched). -/

namespace Fade

/-- `std::llround` / `std::lround`: round half away from zero. -/
def llround_q (x : ℚ) : ℤ :=
  if 0 ≤ x then ⌊x + 1 / 2⌋ else ⌈x - 1 / 2⌉

/-- `std::lround` on the real modelling a float product. -/
noncomputable def lround_r (x : ℝ) : ℤ :=
  if 0 ≤ x then ⌊x + 1 / 2⌋ else ⌈x - 1 / 2⌉

/-- `std::clamp(v, -32768, 32767)`. -/
def clamp16 (v : ℤ) : ℤ := max (-32768) (min v 32767)

/-- `per_ch = llround(fade_ms * sample_rate / 1000.0)` (line 12). -/
def fadePerCh (fade_ms : ℚ) (sample_rate : Nat) : Nat :=
  (llround_q (fade_ms * sample_rate / 1000)).toNat

/-- `total = per_ch * channels` (line 13). -/
def fadeTotal (fade_ms : ℚ) (sample_rate : Nat) (channels : Nat) : Nat :=
  fadePerCh fade_ms sample_rate * channels

/-- Curve exponent (line 20): `1.0f + fade_strength / 25.0f`. -/
noncomputable def exponentOf (fade_strength : ℚ) : ℝ :=
  1 + (fade_strength : ℝ) / 25

/-- Gain of the `i`-th sample (0-based) of the fade window of `total`
samples (lines 24-25): `pow(1 - (i+1)/total, exponent)`. -/
noncomputable def fadeGain (total i : Nat) (e : ℝ) : ℝ :=
  (1 - ((i : ℝ) + 1) / (total : ℝ)) ^ e

/-- One faded sample (lines 26-27): multiply, `lround`, clamp to int16. -/
noncomputable def fadedSample (s : ℤ) (total i : Nat) (e : ℝ) : ℤ :=
  clamp16 (lround_r ((s : ℝ) * fadeGain total i e))

/-- The buffer contents right after the fade loop, before the trailing
`resize` (lines 10-28): early-return, full clear, or prefix plus faded
window. -/
noncomputable def fadeIntermediate (data : List ℤ) (sample_rate : Nat)
    (fade_ms fade_strength : ℚ) (channels : Nat) : List ℤ :=
  if fade_ms ≤ 0 ∨ sample_rate = 0 ∨ channels = 0 then data
  else
    let total := fadeTotal fade_ms sample_rate channels
    if total = 0 ∨ data.length ≤ total then []
    else
      let start := data.length - total
      data.take start ++
        List.zipWith (fun i s => fadedSample s total i (exponentOf fade_strength))
          (List.range total) (data.drop start)

/-- The whole of `fade_and_trim_tail_ms`: as `fadeIntermediate`, followed by
`m.audio_data.resize(start)` (line 30), which truncates the faded tail. -/
noncomputable def fade_and_trim_tail_ms (data : List ℤ) (sample_rate : Nat)
    (fade_ms fade_strength : ℚ) (channels : Nat) : List ℤ :=
  if fade_ms ≤ 0 ∨ sample_rate = 0 ∨ channels = 0 then data
  else
    let total := fadeTotal fade_ms sample_rate channels
    if total = 0 ∨ data.length ≤ total then []
    else
      (fadeIntermediate data sample_rate fade_ms fade_strength channels).take
        (data.length - total)

/-- `AudioOutputProcessor::process` on one popped chunk (lines 503-506):
play it only when it is non-empty.  `true` means `play_audio_chunk` is
invoked. -/
def audioWorkerPlays (data : List ℤ) : Bool := !data.isEmpty

end Fade

/-! ## Claim C3: channel shutdown semantics -/

/-- C3: once a channel's `shutdown()` has run, the flag is never cleared by
any operation, every `push` / `push_blocking` returns the shutdown outcome
without enqueuing, every `pop` / `pop_blocking` / `try_pop` returns
`SHUTDOWN` without blocking, and `shutdown()` is idempotent. -/
theorem safeQueue_shutdown_semantics (s : SafeQueue.State Nat) (item : Nat)
    (op : SafeQueue.Op Nat) (h : s.shutdown_flag = true) :
    SafeQueue.push s item = (false, s) ∧
    SafeQueue.push_blocking s item = (some false, s) ∧
    SafeQueue.pop s = (.SHUTDOWN, none, s) ∧
    SafeQueue.pop_blocking s = (some (.SHUTDOWN, none), s) ∧
    SafeQueue.try_pop s = (.SHUTDOWN, none, s) ∧
    (SafeQueue.applyOp op s).shutdown_flag = true ∧
    SafeQueue.shutdownOp (SafeQueue.shutdownOp s) = SafeQueue.shutdownOp s := by
  refine ⟨?_, ?_, ?_, ?_, ?_, ?_, ?_⟩
  · simp [SafeQueue.push, h]
  · simp [SafeQueue.push_blocking, h]
  · simp [SafeQueue.pop, h]
  · simp [SafeQueue.pop_blocking, h]
  · simp [SafeQueue.try_pop, h]
  · cases op <;>
      simp [SafeQueue.applyOp, SafeQueue.push, SafeQueue.push_blocking,
        SafeQueue.pop, SafeQueue.pop_blocking, SafeQueue.try_pop,
        SafeQueue.flush, SafeQueue.clear, SafeQueue.shutdownOp, h]
  · simp [SafeQueue.shutdownOp]

/-- Witness for C3 at a concrete shut-down channel holding one item. -/
theorem safeQueue_shutdown_semantics_witness :
    SafeQueue.try_pop (⟨[5], 3, true, false⟩ : SafeQueue.State Nat) =
      (.SHUTDOWN, none, (⟨[5], 3, true, false⟩ : SafeQueue.State Nat)) :=
  (safeQueue_shutdown_semantics ⟨[5], 3, true, false⟩ 0 .pop rfl).2.2.2.2.1

/-! ## Claim C9: no pop delivers an item after shutdown -/

/-- C9: all three pop variants test the shutdown flag before looking at the
queue, so items resident at shutdown are never delivered: each returns
`SHUTDOWN`, no item, and leaves the queue contents untouched. -/
theorem safeQueue_no_delivery_after_shutdown (s : SafeQueue.State Nat)
    (h : s.shutdown_flag = true) (_hne : s.queue ≠ []) :
    SafeQueue.pop s = (.SHUTDOWN, none, s) ∧
    SafeQueue.pop_blocking s = (some (.SHUTDOWN, none), s) ∧
    SafeQueue.try_pop s = (.SHUTDOWN, none, s) ∧
    (SafeQueue.pop s).2.2.queue = s.queue ∧
    (SafeQueue.try_pop s).2.2.queue = s.queue := by
  refine ⟨?_, ?_, ?_, ?_, ?_⟩ <;>
    simp [SafeQueue.pop, SafeQueue.pop_blocking, SafeQueue.try_pop, h]

/-- Witness for C9: a shut-down channel still holding two items. -/
theorem safeQueue_no_delivery_after_shutdown_witness :
    SafeQueue.try_pop (⟨[7, 8], 10, true, false⟩ : SafeQueue.State Nat) =
      (.SHUTDOWN, none, (⟨[7, 8], 10, true, false⟩ : SafeQueue.State Nat)) :=
  (safeQueue_no_delivery_after_shutdown ⟨[7, 8], 10, true, false⟩ rfl
    (by decide)).2.2.1

/-! ## Claim C4: TTS interrupt flushes both queues and drops the device -/

/-- C4: on `Interrupt` or `FlushQueues`, the TTS worker flushes its input
queue and calls `interrupt_audio_immediately`, which first flushes the
audio-chunk channel and then issues drop-and-prepare on the open device;
afterwards both the TTS input queue and the audio-chunk channel are empty. -/
theorem tts_interrupt_flushes_and_drops (s : TTSControl.State)
    (t : TTSControl.CtrlType)
    (ht : t = .INTERRUPT ∨ t = .FLUSH_QUEUES) (hdev : s.alsa_open = true) :
    (TTSControl.handle_control_message s t).1 = true ∧
    (TTSControl.handle_control_message s t).2.tts_input = [] ∧
    (TTSControl.handle_control_message s t).2.audio_queue = [] ∧
    (TTSControl.handle_control_message s t).2.events =
      s.events ++ [.flushAudioQueue s.audio_queue.length, .pcmDrop, .pcmPrepare] := by
  have h1 : (t = TTSControl.CtrlType.INTERRUPT ∨ t = TTSControl.CtrlType.FLUSH_QUEUES) := ht
  refine ⟨?_, ?_, ?_, ?_⟩ <;>
    simp [TTSControl.handle_control_message, TTSControl.interrupt_audio_immediately,
      h1, hdev]

/-- Witness for C4 at a concrete state with three queued audio chunks. -/
theorem tts_interrupt_flushes_and_drops_witness :
    (TTSControl.handle_control_message
        ⟨[[65]], [[1], [2], [3]], true, []⟩ .INTERRUPT).2.audio_queue = [] :=
  (tts_interrupt_flushes_and_drops ⟨[[65]], [[1], [2], [3]], true, []⟩
    .INTERRUPT (Or.inl rfl) rfl).2.2.1

/-! ## Claim C5: the phoneme ring never overwrites -/

namespace PhonemeRing

/-- A write on a non-full ring with a stalled consumer at slot 0 advances
the write index by one. -/
theorem write_step_ok (w : Nat) (hw : w + 1 ≤ 1023) :
    write ⟨w, 0⟩ = (⟨w + 1, 0⟩, true) := by
  have hlt : w + 1 < MAX_PHONEMES := by
    simpa [MAX_PHONEMES] using Nat.lt_succ_of_le hw
  have hmod : (w + 1) % MAX_PHONEMES = w + 1 := Nat.mod_eq_of_lt hlt
  simp [write, hmod]

/-- With the consumer stalled at slot 0, `n` writes starting from write
index `w` fill the ring up to index `w + n` as long as that stays below
capacity − 1. -/
theorem writeN_fill : ∀ (n w : Nat), w + n ≤ 1023 →
    writeN n ⟨w, 0⟩ = ⟨w + n, 0⟩ := by
  intro n
  induction n with
  | zero => intro w _; simp [writeN]
  | succ m ih =>
    intro w hw
    have h1 : w + 1 ≤ 1023 := by omega
    have h2 : (w + 1) + m ≤ 1023 := by omega
    calc writeN (m + 1) ⟨w, 0⟩ = writeN m (write ⟨w, 0⟩).1 := rfl
      _ = writeN m ⟨w + 1, 0⟩ := by rw [write_step_ok w h1]
      _ = ⟨(w + 1) + m, 0⟩ := ih (w + 1) h2
      _ = ⟨w + (m + 1), 0⟩ := by ring_nf

/-- A full ring (write index 1023, stalled reader at 0) drops every write. -/
theorem write_full_drops : write ⟨1023, 0⟩ = (⟨1023, 0⟩, false) := by
  simp [write, MAX_PHONEMES]

/-- The full ring stays put under any further number of writes. -/
theorem writeN_full_stuck : ∀ n, writeN n ⟨1023, 0⟩ = ⟨1023, 0⟩ := by
  intro n
  induction n with
  | zero => rfl
  | succ m ih =>
    calc writeN (m + 1) ⟨1023, 0⟩ = writeN m (write ⟨1023, 0⟩).1 := rfl
      _ = writeN m ⟨1023, 0⟩ := by rw [write_full_drops]
      _ = ⟨1023, 0⟩ := ih

/-- Splitting a run of writes. -/
theorem writeN_add : ∀ (a b : Nat) (s : Ring),
    writeN (a + b) s = writeN b (writeN a s) := by
  intro a
  induction a with
  | zero => intro b s; simp [writeN]
  | succ m ih =>
    intro b s
    have h : m + 1 + b = (m + b) + 1 := by omega
    rw [h]
    show writeN (m + b) (write s).1 = writeN b (writeN m (write s).1)
    exact ih b (write s).1

end PhonemeRing

/-- C5: a write whose advanced write index would equal the read index is
dropped and changes nothing; with a stalled consumer on the 1024-slot ring,
2000 attempted writes advance the write index by exactly 1023, every further
write is dropped, and a write succeeds again once the consumer has moved. -/
theorem phoneme_ring_never_overwrites (s : PhonemeRing.Ring)
    (h : (s.write_index + 1) % PhonemeRing.MAX_PHONEMES = s.read_index) :
    PhonemeRing.write s = (s, false) ∧
    PhonemeRing.writeN 2000 ⟨0, 0⟩ = ⟨1023, 0⟩ ∧
    PhonemeRing.write ⟨1023, 0⟩ = (⟨1023, 0⟩, false) ∧
    (∀ n, PhonemeRing.writeN n ⟨1023, 0⟩ = ⟨1023, 0⟩) ∧
    PhonemeRing.write ⟨1023, 1⟩ = (⟨0, 1⟩, true) := by
  refine ⟨?_, ?_, PhonemeRing.write_full_drops, PhonemeRing.writeN_full_stuck, ?_⟩
  · simp [PhonemeRing.write, h]
  · have hsplit : (2000 : Nat) = 1023 + 977 := by norm_num
    rw [hsplit, PhonemeRing.writeN_add]
    rw [show PhonemeRing.writeN 1023 ⟨0, 0⟩ = ⟨1023, 0⟩ by
      simpa using PhonemeRing.writeN_fill 1023 0 (by norm_num)]
    exact PhonemeRing.writeN_full_stuck 977
  · simp [PhonemeRing.write, PhonemeRing.MAX_PHONEMES]

/-- Witness for C5 at the full-ring state. -/
theorem phoneme_ring_never_overwrites_witness :
    PhonemeRing.write ⟨1023, 0⟩ = (⟨1023, 0⟩, false) :=
  (phoneme_ring_never_overwrites ⟨1023, 0⟩ (by decide)).1

/-! ## Claim C10: chunks no longer than the fade window are erased -/

/-- At the call site's constants (fade_ms = 325, mono) and a 1000 Hz rate,
the fade window is exactly 325 samples. -/
theorem fadeTotal_325_1000 : Fade.fadeTotal 325 1000 1 = 325 := by
  have h : ((325 : ℚ) * 1000 / 1000) = 325 := by norm_num
  have h3 : ⌊(2⁻¹ : ℚ)⌋ = 0 := by
    rw [Int.floor_eq_iff]
    norm_num
  simp [Fade.fadeTotal, Fade.fadePerCh, Fade.llround_q, h, h3]

/-- C10: when a chunk has at most `llround(fade_ms·Fs/1000) · channels`
samples, `fade_and_trim_tail_ms` erases the whole buffer (already in the
pre-`resize` state), and the Audio worker does not invoke
`play_audio_chunk` on the resulting empty chunk. -/
theorem fade_short_chunk_cleared (data : List ℤ) (sr ch : Nat)
    (fms fstr : ℚ) (hfm : 0 < fms) (hsr : sr ≠ 0) (hch : ch ≠ 0)
    (hlen : data.length ≤ Fade.fadeTotal fms sr ch) :
    Fade.fade_and_trim_tail_ms data sr fms fstr ch = [] ∧
    Fade.fadeIntermediate data sr fms fstr ch = [] ∧
    Fade.audioWorkerPlays (Fade.fade_and_trim_tail_ms data sr fms fstr ch)
      = false := by
  have hc1 : ¬(fms ≤ 0 ∨ sr = 0 ∨ ch = 0) := by
    push_neg
    exact ⟨hfm, hsr, hch⟩
  have hc2 : Fade.fadeTotal fms sr ch = 0 ∨
      data.length ≤ Fade.fadeTotal fms sr ch := Or.inr hlen
  have h1 : Fade.fade_and_trim_tail_ms data sr fms fstr ch = [] := by
    simp [Fade.fade_and_trim_tail_ms, hc1, hc2]
  have h2 : Fade.fadeIntermediate data sr fms fstr ch = [] := by
    simp [Fade.fadeIntermediate, hc1, hc2]
  exact ⟨h1, h2, by simp [h1, Fade.audioWorkerPlays]⟩

/-- Witness for C10: a 10-sample chunk at 1000 Hz (fade window 325). -/
theorem fade_short_chunk_cleared_witness :
    Fade.fade_and_trim_tail_ms (List.replicate 10 (5 : ℤ)) 1000 325 120 1
      = [] :=
  (fade_short_chunk_cleared (List.replicate 10 (5 : ℤ)) 1000 1 325 120
    (by norm_num) (by norm_num) (by norm_num)
    (by rw [fadeTotal_325_1000]; simp)).1

/-! ## Claim C2: the chunker's flush rule and the scenario-2 trace

The fragments of the trace are the byte strings of
`"The" " quick" " brown" " fox" " jumps." " And" " then"`. -/

/-- C2 (amended): after scanning a fragment, the chunker flushes exactly
when `word_count ≥ wcMin` (4 in the llama chunker; the rknn variant uses 3),
or the fragment contained a sentence-terminating byte, or the buffer has
reached 96 bytes; a flush emits the whole buffer, clears it, resets
`word_count`, and clears `in_word` only on a sentence-boundary flush.  Fed
the scenario-2 fragments, the llama chunker emits
`"The quick brown fox jumps."` and then `" And then"` — with its leading
space — at the final flush. -/
theorem chunker_flush_rule_and_trace :
    (∀ (wcMin : Nat) (st : ChunkerState) (frag : List Nat),
      (feedFragment wcMin st frag).2 =
        (if wcMin ≤ (scanFrag st frag).word_count ∨ frag.any isSentenceEnd = true
            ∨ MAX_BYTES ≤ st.token_buffer.length + frag.length
          then some (st.token_buffer ++ frag) else none) ∧
      (feedFragment wcMin st frag).1 =
        (if wcMin ≤ (scanFrag st frag).word_count ∨ frag.any isSentenceEnd = true
            ∨ MAX_BYTES ≤ st.token_buffer.length + frag.length
          then ⟨[], 0, if frag.any isSentenceEnd then false
                       else (scanFrag st frag).in_word⟩
          else ⟨st.token_buffer ++ frag, (scanFrag st frag).word_count,
                (scanFrag st frag).in_word⟩)) ∧
    processFragments 4
      [[84,104,101],[32,113,117,105,99,107],[32,98,114,111,119,110],
       [32,102,111,120],[32,106,117,109,112,115,46],[32,65,110,100],
       [32,116,104,101,110]] =
      [[84,104,101,32,113,117,105,99,107,32,98,114,111,119,110,32,102,111,
        120,32,106,117,109,112,115,46],
       [32,65,110,100,32,116,104,101,110]] := by
  refine ⟨fun wcMin st frag => ?_, by decide⟩
  by_cases h1 : wcMin ≤ (scanFrag st frag).word_count <;>
  by_cases h2 : frag.any isSentenceEnd = true <;>
  by_cases h3 : MAX_BYTES ≤ st.token_buffer.length + frag.length <;>
  simp [feedFragment, h1, h2, h3, List.length_append]

/-- Counterexample to C2 as stated: neither the llama chunker (threshold 4)
nor the rknn chunker (threshold 3) emits the chunk `"And then"` for the
scenario-2 fragments — the llama chunker emits `" And then"` (the leading
space of the fragment `" And"` is preserved), and the rknn chunker flushes
already at `" fox"` (word count 3), producing three chunks. -/
theorem chunker_trace_counterexample :
    processFragments 4
      [[84,104,101],[32,113,117,105,99,107],[32,98,114,111,119,110],
       [32,102,111,120],[32,106,117,109,112,115,46],[32,65,110,100],
       [32,116,104,101,110]] ≠
      [[84,104,101,32,113,117,105,99,107,32,98,114,111,119,110,32,102,111,
        120,32,106,117,109,112,115,46],
       [65,110,100,32,116,104,101,110]] ∧
    processFragments 3
      [[84,104,101],[32,113,117,105,99,107],[32,98,114,111,119,110],
       [32,102,111,120],[32,106,117,109,112,115,46],[32,65,110,100],
       [32,116,104,101,110]] ≠
      [[84,104,101,32,113,117,105,99,107,32,98,114,111,119,110,32,102,111,
        120,32,106,117,109,112,115,46],
       [65,110,100,32,116,104,101,110]] ∧
    processFragments 3
      [[84,104,101],[32,113,117,105,99,107],[32,98,114,111,119,110],
       [32,102,111,120],[32,106,117,109,112,115,46],[32,65,110,100],
       [32,116,104,101,110]] =
      [[84,104,101,32,113,117,105,99,107,32,98,114,111,119,110,32,102,111,120],
       [32,106,117,109,112,115,46],
       [32,65,110,100,32,116,104,101,110]] := by
  refine ⟨by decide, by decide, by decide⟩

/-! ## Claim C6: sentence terminators and chunk boundaries -/

/-- The flushing branch of `feedFragment`, as an equation. -/
theorem feedFragment_eq_flush (wcMin : Nat) (st : ChunkerState)
    (frag : List Nat)
    (h : wcMin ≤ (scanFrag st frag).word_count ∨ frag.any isSentenceEnd = true
        ∨ MAX_BYTES ≤ st.token_buffer.length + frag.length) :
    feedFragment wcMin st frag =
      (⟨[], 0, if frag.any isSentenceEnd then false
               else (scanFrag st frag).in_word⟩,
       some (st.token_buffer ++ frag)) := by
  rcases h with h | h | h <;> simp [feedFragment, h, List.length_append]

/-- The non-flushing branch of `feedFragment`, as an equation. -/
theorem feedFragment_eq_keep (wcMin : Nat) (st : ChunkerState)
    (frag : List Nat)
    (h : ¬(wcMin ≤ (scanFrag st frag).word_count
        ∨ frag.any isSentenceEnd = true
        ∨ MAX_BYTES ≤ st.token_buffer.length + frag.length)) :
    feedFragment wcMin st frag =
      (⟨st.token_buffer ++ frag, (scanFrag st frag).word_count,
        (scanFrag st frag).in_word⟩, none) := by
  push_neg at h
  obtain ⟨h1, h2, h3⟩ := h
  simp [feedFragment, h1, h2, h3, List.length_append]

/-- C6 (amended): a fragment containing a sentence-terminating byte always
triggers a flush at the end of that fragment; the emitted chunk is the whole
buffer including the fragment's trailing bytes, so the chunk ends with the
fragment's last byte — which need not be the terminator itself — and
`in_word` is cleared. -/
theorem chunker_sentence_flush (wcMin : Nat) (st : ChunkerState)
    (frag : List Nat) (h : frag.any isSentenceEnd = true) :
    (feedFragment wcMin st frag).2 = some (st.token_buffer ++ frag) ∧
    (feedFragment wcMin st frag).1.in_word = false := by
  rw [feedFragment_eq_flush wcMin st frag (Or.inr (Or.inl h))]
  simp [h]

/-- Witness for C6 at the fragment `"Hi."`. -/
theorem chunker_sentence_flush_witness :
    (feedFragment 4 ChunkerState.init [72, 105, 46]).2 = some [72, 105, 46] :=
  (chunker_sentence_flush 4 ChunkerState.init [72, 105, 46] (by decide)).1

/-- Counterexample to C6 as stated: the fragment `"Hi. Bob"` contains a
terminator but the chunk flushed for it is the whole fragment, ending in
`b` (98), not at the `.`; and the single 96-byte fragment of `a`s (97) is
flushed by the byte-length valve as a chunk that neither ends with a
terminator, nor is the final flush (the pending buffer is left empty), nor
contains any word-closing byte. -/
theorem chunker_sentence_flush_counterexample :
    (feedFragment 4 ChunkerState.init [72, 105, 46, 32, 66, 111, 98]).2 =
      some [72, 105, 46, 32, 66, 111, 98] ∧
    ([72, 105, 46, 32, 66, 111, 98] : List Nat).getLast? = some 98 ∧
    isSentenceEnd 98 = false ∧
    (runFrom 4 ChunkerState.init [List.replicate 96 97]).2 =
      [List.replicate 96 97] ∧
    (runFrom 4 ChunkerState.init [List.replicate 96 97]).1.token_buffer
      = [] ∧
    (List.replicate 96 97).all
      (fun c => isWordChar c && !isWS c && !isPunct c) = true ∧
    isSentenceEnd 97 = false := by
  refine ⟨by decide, by decide, by decide, by decide, by decide, by decide,
    by decide⟩

/-! ## Claim C7: chunk size bounds -/

/-- Running the chunker from a state whose buffer is below `MAX_BYTES`
keeps the buffer below `MAX_BYTES` and bounds every emitted chunk by
`95 + L`, where `L` bounds the fragment lengths. -/
theorem runFrom_chunk_bound (wcMin L : Nat) :
    ∀ (fs : List (List Nat)) (st : ChunkerState),
    st.token_buffer.length < MAX_BYTES → (∀ f ∈ fs, f.length ≤ L) →
    (∀ c ∈ (runFrom wcMin st fs).2, c.length ≤ 95 + L) ∧
    (runFrom wcMin st fs).1.token_buffer.length < MAX_BYTES := by
  intro fs
  induction fs with
  | nil =>
    intro st hb _
    exact ⟨by simp [runFrom], by simpa [runFrom] using hb⟩
  | cons f fs ih =>
    intro st hb hf
    have hfL : f.length ≤ L := hf f (by simp)
    have hfsL : ∀ g ∈ fs, g.length ≤ L := fun g hg => hf g (by simp [hg])
    by_cases hc : (wcMin ≤ (scanFrag st f).word_count
        ∨ f.any isSentenceEnd = true
        ∨ MAX_BYTES ≤ st.token_buffer.length + f.length)
    · have hstep := feedFragment_eq_flush wcMin st f hc
      have hrec := ih ⟨[], 0, if f.any isSentenceEnd then false
                              else (scanFrag st f).in_word⟩
        (by simp [MAX_BYTES]) hfsL
      constructor
      · intro c hcmem
        simp only [runFrom, hstep] at hcmem
        rcases List.mem_append.mp hcmem with hcl | hcr
        · have : c = st.token_buffer ++ f := by simpa using hcl
          subst this
          have : st.token_buffer.length ≤ 95 := by
            have := hb; simp [MAX_BYTES] at this; omega
          simp only [List.length_append]
          omega
        · exact hrec.1 c hcr
      · simpa [runFrom, hstep] using hrec.2
    · have hstep := feedFragment_eq_keep wcMin st f hc
      push_neg at hc
      have hlt : (st.token_buffer ++ f).length < MAX_BYTES := by
        simp only [List.length_append]
        omega
      have hrec := ih ⟨st.token_buffer ++ f, (scanFrag st f).word_count,
        (scanFrag st f).in_word⟩ hlt hfsL
      constructor
      · intro c hcmem
        simp only [runFrom, hstep] at hcmem
        exact hrec.1 c (by simpa using hcmem)
      · simpa [runFrom, hstep] using hrec.2

/-- C7 (amended): every chunk the chunker emits is at most `95 + L` bytes
when every incoming fragment is at most `L` bytes — a chunk can exceed 96
bytes only through the fragment that completes it — and the final
end-of-generation flush is always strictly below 96 bytes, because the
per-fragment byte-length valve fires first. -/
theorem chunker_chunk_size_bound (wcMin L : Nat) (frags : List (List Nat))
    (hf : ∀ f ∈ frags, f.length ≤ L) :
    (∀ c ∈ processFragments wcMin frags, c.length ≤ 95 + L) ∧
    (∀ c ∈ finalFlush (runFrom wcMin ChunkerState.init frags).1,
      c.length < MAX_BYTES) := by
  have h := runFrom_chunk_bound wcMin L frags ChunkerState.init
    (by simp [ChunkerState.init, MAX_BYTES]) hf
  constructor
  · intro c hc
    rcases List.mem_append.mp hc with hcl | hcr
    · exact h.1 c hcl
    · have : c = (runFrom wcMin ChunkerState.init frags).1.token_buffer := by
        by_cases hbe :
            (runFrom wcMin ChunkerState.init frags).1.token_buffer = []
        · simp [finalFlush, hbe] at hcr
        · simp [finalFlush, hbe] at hcr
          simp [hcr]
      subst this
      have := h.2
      simp [MAX_BYTES] at this
      omega
  · intro c hc
    have : c = (runFrom wcMin ChunkerState.init frags).1.token_buffer := by
      by_cases hbe :
          (runFrom wcMin ChunkerState.init frags).1.token_buffer = []
      · simp [finalFlush, hbe] at hc
      · simp [finalFlush, hbe] at hc
        simp [hc]
    subst this
    exact h.2

/-- Witness for C7: the single-fragment stream `"Hi."` with bound 3. -/
theorem chunker_chunk_size_bound_witness :
    ([72, 105, 46] : List Nat).length ≤ 95 + 3 :=
  (chunker_chunk_size_bound 4 3 [[72, 105, 46]] (by decide)).1
    [72, 105, 46] (by decide)

/-- Counterexample to C7 as stated: two 50-byte fragments of `a`s produce a
single 100-byte chunk, flushed by the byte-length valve in mid-stream
(the final flush emits nothing), even though no individual fragment is
oversize. -/
theorem chunker_chunk_size_counterexample :
    (runFrom 4 ChunkerState.init
      [List.replicate 50 97, List.replicate 50 97]).2 =
      [List.replicate 100 97] ∧
    (runFrom 4 ChunkerState.init
      [List.replicate 50 97, List.replicate 50 97]).1.token_buffer = [] ∧
    (List.replicate (100 : Nat) 97).length = 100 ∧
    MAX_BYTES < 100 ∧
    (List.replicate (50 : Nat) 97).length < MAX_BYTES := by
  refine ⟨by decide, by decide, by decide, by decide, by decide⟩

/-! ## Claim C1: concatenation of emitted chunks and the antiprompt -/

/-- A fragment processed after the generation is done changes nothing. -/
theorem genStep_of_done (wcMin : Nat) (antis : List (List Nat))
    (s : GenState) (frag : List Nat) (hd : s.done = true) :
    genStep wcMin antis s frag = s := by
  simp [genStep, hd]

/-- Once done, the rest of the stream changes nothing. -/
theorem genRun_of_done (wcMin : Nat) (antis : List (List Nat)) :
    ∀ (fs : List (List Nat)) (s : GenState), s.done = true →
    genRun wcMin antis s fs = s := by
  intro fs
  induction fs with
  | nil => intro s _; rfl
  | cons f fs ih =>
    intro s hd
    show genRun wcMin antis (genStep wcMin antis s f) fs = s
    rw [genStep_of_done wcMin antis s f hd]
    exact ih s hd

/-- One live generation step appends the fragment to the raw produced
text. -/
theorem genStep_raw (wcMin : Nat) (antis : List (List Nat)) (s : GenState)
    (frag : List Nat) (hd : s.done = false) :
    (genStep wcMin antis s frag).raw = s.raw ++ frag := by
  cases hfind : antis.find? (fun a => List.isSuffixOf a (s.raw ++ frag)) <;>
    simp [genStep, hd, hfind]

/-- One generation step preserves the bookkeeping identity: the chunks
handed to the callback so far plus the pending buffer spell out exactly the
raw produced text. -/
theorem genStep_flatten (wcMin : Nat) (antis : List (List Nat))
    (s : GenState) (frag : List Nat)
    (h : s.emitted.flatten ++ s.chunker.token_buffer = s.raw) :
    (genStep wcMin antis s frag).emitted.flatten ++
      (genStep wcMin antis s frag).chunker.token_buffer =
      (genStep wcMin antis s frag).raw := by
  by_cases hd : s.done
  · simpa [genStep_of_done wcMin antis s frag hd] using h
  · have hd' : s.done = false := by simpa using hd
    by_cases hc : (wcMin ≤ (scanFrag s.chunker frag).word_count
        ∨ frag.any isSentenceEnd = true
        ∨ MAX_BYTES ≤ s.chunker.token_buffer.length + frag.length)
    · have hstep := feedFragment_eq_flush wcMin s.chunker frag hc
      cases hfind : antis.find? (fun a => List.isSuffixOf a (s.raw ++ frag)) <;>
        · simp only [genStep, hd', hstep, hfind]
          simp [← h]
    · have hstep := feedFragment_eq_keep wcMin s.chunker frag hc
      cases hfind : antis.find? (fun a => List.isSuffixOf a (s.raw ++ frag)) <;>
        · simp only [genStep, hd', hstep, hfind]
          simp [← h]

/-- The bookkeeping identity holds after any number of steps. -/
theorem genRun_flatten (wcMin : Nat) (antis : List (List Nat)) :
    ∀ (fs : List (List Nat)) (s : GenState),
    s.emitted.flatten ++ s.chunker.token_buffer = s.raw →
    (genRun wcMin antis s fs).emitted.flatten ++
      (genRun wcMin antis s fs).chunker.token_buffer =
      (genRun wcMin antis s fs).raw := by
  intro fs
  induction fs with
  | nil => intro s h; exact h
  | cons f fs ih =>
    intro s h
    exact ih (genStep wcMin antis s f) (genStep_flatten wcMin antis s f h)

/-- The raw produced text is always the concatenation of an initial
segment of the fragment stream. -/
theorem genRun_raw_take (wcMin : Nat) (antis : List (List Nat)) :
    ∀ (fs : List (List Nat)) (s : GenState),
    ∃ n, (genRun wcMin antis s fs).raw = s.raw ++ (fs.take n).flatten := by
  intro fs
  induction fs with
  | nil => intro s; exact ⟨0, by simp [genRun]⟩
  | cons f fs ih =>
    intro s
    by_cases hd : s.done
    · refine ⟨0, ?_⟩
      rw [genRun_of_done wcMin antis (f :: fs) s hd]
      simp
    · have hd' : s.done = false := by simpa using hd
      obtain ⟨n, hn⟩ := ih (genStep wcMin antis s f)
      refine ⟨n + 1, ?_⟩
      show (genRun wcMin antis (genStep wcMin antis s f) fs).raw = _
      rw [hn, genStep_raw wcMin antis s f hd']
      simp

/-- When no antiprompt ever matched, the raw text is the whole stream. -/
theorem genRun_raw_of_not_done (wcMin : Nat) (antis : List (List Nat)) :
    ∀ (fs : List (List Nat)) (s : GenState),
    (genRun wcMin antis s fs).done = false →
    (genRun wcMin antis s fs).raw = s.raw ++ fs.flatten := by
  intro fs
  induction fs with
  | nil => intro s _; simp [genRun]
  | cons f fs ih =>
    intro s h
    by_cases hd : s.done
    · rw [genRun_of_done wcMin antis (f :: fs) s hd] at h
      rw [hd] at h
      cases h
    · have hd' : s.done = false := by simpa using hd
      have h' : (genRun wcMin antis (genStep wcMin antis s f) fs).done
          = false := h
      have := ih (genStep wcMin antis s f) h'
      show (genRun wcMin antis (genStep wcMin antis s f) fs).raw = _
      rw [this, genStep_raw wcMin antis s f hd']
      simp

/-- C1 (amended): concatenating all chunks handed to the callback, the final
flush included, reproduces the raw generated text exactly — an initial
segment of the fragment stream, with nothing stripped from it; when no
antiprompt match halts generation it is the whole stream.  The antiprompt is
removed only from the separately returned `response` string. -/
theorem generate_async_chunk_concat (wcMin : Nat)
    (antis frags : List (List Nat)) :
    (generateAsync wcMin antis frags).1.flatten =
      (genRun wcMin antis GenState.init frags).raw ∧
    (∃ n, (generateAsync wcMin antis frags).1.flatten
      = (frags.take n).flatten) ∧
    ((genRun wcMin antis GenState.init frags).done = false →
      (generateAsync wcMin antis frags).1.flatten = frags.flatten) := by
  have hrun := genRun_flatten wcMin antis frags GenState.init (by rfl)
  have hjoin : (generateAsync wcMin antis frags).1.flatten =
      (genRun wcMin antis GenState.init frags).raw := by
    rw [← hrun]
    by_cases hbe : (genRun wcMin antis GenState.init frags).chunker.token_buffer
        = [] <;>
      simp [generateAsync, finalFlush, hbe]
  refine ⟨hjoin, ?_, ?_⟩
  · obtain ⟨n, hn⟩ := genRun_raw_take wcMin antis frags GenState.init
    exact ⟨n, by rw [hjoin, hn]; rfl⟩
  · intro hdone
    rw [hjoin, genRun_raw_of_not_done wcMin antis frags GenState.init hdone]
    rfl

/-- Witness for C1 on the fragment `"Hi."` with no antiprompts. -/
theorem generate_async_chunk_concat_witness :
    (generateAsync 4 [] [[72, 105, 46]]).1.flatten =
      ([[72, 105, 46]] : List (List Nat)).flatten :=
  (generate_async_chunk_concat 4 [] [[72, 105, 46]]).2.2 (by decide)

/-- Counterexample to C1 as stated: with antiprompt `"User:"` and the
fragments `"Hello."`, `"User:"`, the match halts generation and strips the
antiprompt from the returned response, but the emitted chunk stream is
`["Hello.", "User:"]` — the stop string appears in it as a whole chunk and
the concatenation is the unstripped text, not `"Hello."`. -/
theorem generate_async_antiprompt_counterexample :
    (generateAsync 4 [[85, 115, 101, 114, 58]]
        [[72, 101, 108, 108, 111, 46], [85, 115, 101, 114, 58]]).1 =
      [[72, 101, 108, 108, 111, 46], [85, 115, 101, 114, 58]] ∧
    [85, 115, 101, 114, 58] ∈
      (generateAsync 4 [[85, 115, 101, 114, 58]]
        [[72, 101, 108, 108, 111, 46], [85, 115, 101, 114, 58]]).1 ∧
    (generateAsync 4 [[85, 115, 101, 114, 58]]
        [[72, 101, 108, 108, 111, 46], [85, 115, 101, 114, 58]]).1.flatten ≠
      [72, 101, 108, 108, 111, 46] ∧
    (generateAsync 4 [[85, 115, 101, 114, 58]]
        [[72, 101, 108, 108, 111, 46], [85, 115, 101, 114, 58]]).2 =
      [72, 101, 108, 108, 111, 46] := by
  refine ⟨by decide, by decide, by decide, by decide⟩

/-! ## Claim C8: the tail fade-out -/

/-- `lround(0)` is `0` (exact also in IEEE arithmetic: the last gain is
`pow(0.0f, e) = 0` and `sample * 0.0f` rounds to `0`). -/
theorem lround_r_zero : Fade.lround_r 0 = 0 := by
  unfold Fade.lround_r
  rw [if_pos le_rfl]
  rw [Int.floor_eq_iff]
  constructor
  · norm_num
  · norm_num

/-- A non-negative fade strength gives a non-zero curve exponent. -/
theorem exponentOf_ne_zero (fstr : ℚ) (h : 0 ≤ fstr) :
    Fade.exponentOf fstr ≠ 0 := by
  have h1 : (0 : ℝ) ≤ (fstr : ℝ) / 25 := by positivity
  unfold Fade.exponentOf
  nlinarith

/-- The last sample of the fade window is multiplied by gain
`(1 - total/total)^e = 0^e = 0` and therefore becomes `0`. -/
theorem fadedSample_last (s : ℤ) (total : Nat) (e : ℝ) (ht : total ≠ 0)
    (he : e ≠ 0) : Fade.fadedSample s total (total - 1) e = 0 := by
  have htR : ((total : ℝ)) ≠ 0 := Nat.cast_ne_zero.mpr ht
  have hbase : (1 : ℝ) - (((total - 1 : Nat) : ℝ) + 1) / (total : ℝ) = 0 := by
    rw [Nat.cast_sub (Nat.one_le_iff_ne_zero.mpr ht)]
    push_cast
    field_simp
  have hg : Fade.fadeGain total (total - 1) e = 0 := by
    rw [Fade.fadeGain, hbase]
    exact Real.zero_rpow he
  rw [Fade.fadedSample, hg, mul_zero, lround_r_zero]
  decide

/-- C8 (amended): at the default strength 120 the curve exponent is
`5.8 = 29/5`; for any chunk with strictly more samples than the fade window
`llround(fade_ms·Fs/1000)·channels`, the buffer right after the fade loop
ends in a `0` sample, its pre-fade prefix is bit-identical to the input, and
the function's result is exactly that untouched prefix (the faded tail is
truncated).  A chunk with exactly the window's sample count is cleared
instead (see the counterexample), so `strictly more` cannot be weakened to
`at least`. -/
theorem fade_tail_last_sample_zero (data : List ℤ) (sr ch : Nat)
    (fms fstr : ℚ) (hfm : 0 < fms) (hsr : sr ≠ 0) (hch : ch ≠ 0)
    (he : Fade.exponentOf fstr ≠ 0)
    (ht0 : Fade.fadeTotal fms sr ch ≠ 0)
    (hlen : Fade.fadeTotal fms sr ch < data.length) :
    Fade.exponentOf 120 = 29 / 5 ∧
    (Fade.fadeIntermediate data sr fms fstr ch).getLast? = some 0 ∧
    (Fade.fadeIntermediate data sr fms fstr ch).take
      (data.length - Fade.fadeTotal fms sr ch) =
      data.take (data.length - Fade.fadeTotal fms sr ch) ∧
    Fade.fade_and_trim_tail_ms data sr fms fstr ch =
      data.take (data.length - Fade.fadeTotal fms sr ch) := by
  have hc1 : ¬(fms ≤ 0 ∨ sr = 0 ∨ ch = 0) := by
    push_neg
    exact ⟨hfm, hsr, hch⟩
  have hc2 : ¬(Fade.fadeTotal fms sr ch = 0 ∨
      data.length ≤ Fade.fadeTotal fms sr ch) := by
    push_neg
    exact ⟨ht0, hlen⟩
  have hInter : Fade.fadeIntermediate data sr fms fstr ch =
      data.take (data.length - Fade.fadeTotal fms sr ch) ++
      List.zipWith
        (fun i s => Fade.fadedSample s (Fade.fadeTotal fms sr ch) i
          (Fade.exponentOf fstr))
        (List.range (Fade.fadeTotal fms sr ch))
        (data.drop (data.length - Fade.fadeTotal fms sr ch)) := by
    simp only [Fade.fadeIntermediate]
    rw [if_neg hc1, if_neg hc2]
  have hpl : (data.take (data.length - Fade.fadeTotal fms sr ch)).length =
      data.length - Fade.fadeTotal fms sr ch := by
    rw [List.length_take]
    omega
  have hB : (Fade.fadeIntermediate data sr fms fstr ch).take
      (data.length - Fade.fadeTotal fms sr ch) =
      data.take (data.length - Fade.fadeTotal fms sr ch) := by
    rw [hInter, List.take_append_of_le_length (by rw [hpl]), List.take_take]
    simp
  refine ⟨by unfold Fade.exponentOf; norm_num, ?_, hB, ?_⟩
  · have hdl : (data.drop (data.length - Fade.fadeTotal fms sr ch)).length =
        Fade.fadeTotal fms sr ch := by
      rw [List.length_drop]
      omega
    have hzl : (List.zipWith
        (fun i s => Fade.fadedSample s (Fade.fadeTotal fms sr ch) i
          (Fade.exponentOf fstr))
        (List.range (Fade.fadeTotal fms sr ch))
        (data.drop (data.length - Fade.fadeTotal fms sr ch))).length =
        Fade.fadeTotal fms sr ch := by
      rw [List.length_zipWith, List.length_range, hdl]
      simp
    have hidx : data.length - Fade.fadeTotal fms sr ch +
        (Fade.fadeTotal fms sr ch - 1) < data.length := by omega
    have hz : (List.zipWith
        (fun i s => Fade.fadedSample s (Fade.fadeTotal fms sr ch) i
          (Fade.exponentOf fstr))
        (List.range (Fade.fadeTotal fms sr ch))
        (data.drop (data.length - Fade.fadeTotal fms sr ch))).getLast?
        = some 0 := by
      rw [List.getLast?_eq_getElem?, hzl, List.getElem?_zipWith,
        List.getElem?_range (by omega), List.getElem?_drop,
        List.getElem?_eq_getElem hidx]
      simp only []
      rw [fadedSample_last _ _ _ ht0 he]
    rw [hInter, List.getLast?_append, hz]
    rfl
  · have hres : Fade.fade_and_trim_tail_ms data sr fms fstr ch =
        (Fade.fadeIntermediate data sr fms fstr ch).take
          (data.length - Fade.fadeTotal fms sr ch) := by
      simp only [Fade.fade_and_trim_tail_ms]
      rw [if_neg hc1, if_neg hc2]
    rw [hres, hB]

/-- Witness for C8 on a 400-sample chunk at 1000 Hz (window 325). -/
theorem fade_tail_last_sample_zero_witness :
    (Fade.fadeIntermediate (List.replicate 400 (7 : ℤ)) 1000 325 120 1).getLast?
      = some 0 :=
  (fade_tail_last_sample_zero (List.replicate 400 (7 : ℤ)) 1000 1 325 120
    (by norm_num) (by norm_num) (by norm_num)
    (exponentOf_ne_zero 120 (by norm_num))
    (by rw [fadeTotal_325_1000]; norm_num)
    (by rw [fadeTotal_325_1000, List.length_replicate]; norm_num)).2.1

/-- Counterexample to C8 as stated: a chunk with exactly
`fade_ms·Fs/1000 = 325` samples (at 1000 Hz, mono) satisfies the claim's
`at least` hypothesis, yet the code clears the whole buffer — there is no
faded last sample at all, and nothing of the input survives. -/
theorem fade_tail_counterexample :
    Fade.fadeTotal 325 1000 1 ≤ (List.replicate 325 (7 : ℤ)).length ∧
    Fade.fadeIntermediate (List.replicate 325 (7 : ℤ)) 1000 325 120 1 = [] ∧
    (Fade.fadeIntermediate (List.replicate 325 (7 : ℤ)) 1000 325 120
      1).getLast? ≠ some 0 ∧
    Fade.fade_and_trim_tail_ms (List.replicate 325 (7 : ℤ)) 1000 325 120 1
      = [] := by
  have ht := fadeTotal_325_1000
  have hlen : (List.replicate 325 (7 : ℤ)).length = 325 :=
    List.length_replicate 325 7
  have hc2 : Fade.fadeTotal 325 1000 1 = 0 ∨
      (List.replicate 325 (7 : ℤ)).length ≤ Fade.fadeTotal 325 1000 1 :=
    Or.inr (by rw [ht, hlen])
  have hc1 : ¬((325 : ℚ) ≤ 0 ∨ (1000 : Nat) = 0 ∨ (1 : Nat) = 0) := by
    norm_num
  have h2 : Fade.fadeIntermediate (List.replicate 325 (7 : ℤ)) 1000 325 120 1
      = [] := by
    simp only [Fade.fadeIntermediate]
    rw [if_neg hc1, if_pos hc2]
  have h3 : Fade.fade_and_trim_tail_ms (List.replicate 325 (7 : ℤ)) 1000 325
      120 1 = [] := by
    simp only [Fade.fade_and_trim_tail_ms]
    rw [if_neg hc1, if_pos hc2]
  refine ⟨by rw [ht, hlen], h2, by rw [h2]; simp, h3⟩

end LocalLLM
